import Mathlib

/-!
MetaLock DAO deployment script

A shallow embedding of `scripts/deploy.js`:

```
const hre = require("hardhat");

async function main() {
  const MetaLockDAO = await hre.ethers.getContractFactory("MetaLockDAO");
  const dao = await MetaLockDAO.deploy();
  await dao.waitForDeployment();

  console.log("MetaLock DAO deployed to:", await dao.getAddress());
}

main().catch((error) => {
  console.error(error);
  process.exitCode = 1;
});
```

The blockchain client (`hre.ethers` and the objects it hands out) is external to the
script, so it is a parameter: four stateful, fallible operations over an arbitrary
world state `W`.  An awaited call either yields a value or throws; this is
`Except E α`, with `E` the type of thrown values.  Every effect of the script is
appended to one chronological event log, from which standard output, standard error,
the exit code and the trace of client calls are read off.
-/

namespace MetaLock

/-- The injected client: `getContractFactory(name)`, `factory.deploy(...args)`,
`handle.waitForDeployment()` and `handle.getAddress()`.  Each call runs against the
world state and returns its outcome together with the new world state (a failing call
may change the world too). -/
structure Client (F H E W : Type) where
  getContractFactory : String → W → Except E F × W
  deploy : F → List String → W → Except E H × W
  waitForDeployment : H → W → Except E Unit × W
  getAddress : H → W → Except E String × W

/-- One observable effect of the script.  A client call is recorded when it settles,
with what it was called on and how it settled. -/
inductive Event (F H E : Type) where
  | getContractFactory (name : String) (res : Except E F)
  | deploy (factory : F) (args : List String) (res : Except E H)
  | waitForDeployment (handle : H) (res : Except E Unit)
  | getAddress (handle : H) (res : Except E String)
  | stdoutWrite (text : String)
  | stderrWrite (err : E)
  | setExitCode (code : Nat)

/-- The state threaded through the script: the client's world and the event log,
oldest event first. -/
structure State (F H E W : Type) where
  world : W
  log : List (Event F H E)

/-- An asynchronous computation of the script: it settles with a value or a thrown
value, and the state it leaves behind is kept in both cases. -/
def Script (F H E W α : Type) : Type :=
  State F H E W → Except E α × State F H E W

variable {F H E W : Type}

/-- Sequencing of awaited computations: a throw skips everything after it. -/
def Script.bind {α β : Type} (m : Script F H E W α) (k : α → Script F H E W β) :
    Script F H E W β := fun s =>
  match m s with
  | (Except.ok a, s1) => k a s1
  | (Except.error e, s1) => (Except.error e, s1)

instance : Monad (Script F H E W) where
  pure a := fun s => (Except.ok a, s)
  bind := Script.bind

/-- The promise method `.catch(handler)`: the handler runs only on rejection, with the
rejection value. -/
def promiseCatch {α : Type} (m : Script F H E W α) (handler : E → Script F H E W α) :
    Script F H E W α := fun s =>
  match m s with
  | (Except.ok a, s1) => (Except.ok a, s1)
  | (Except.error e, s1) => handler e s1

/-- Awaited `hre.ethers.getContractFactory(name)`. -/
def getContractFactory (hre : Client F H E W) (name : String) : Script F H E W F :=
  fun s =>
    let r := hre.getContractFactory name s.world
    (r.1, { world := r.2, log := s.log ++ [Event.getContractFactory name r.1] })

/-- Awaited `factory.deploy(...args)`. -/
def deploy (hre : Client F H E W) (factory : F) (args : List String) : Script F H E W H :=
  fun s =>
    let r := hre.deploy factory args s.world
    (r.1, { world := r.2, log := s.log ++ [Event.deploy factory args r.1] })

/-- Awaited `handle.waitForDeployment()`. -/
def waitForDeployment (hre : Client F H E W) (handle : H) : Script F H E W Unit :=
  fun s =>
    let r := hre.waitForDeployment handle s.world
    (r.1, { world := r.2, log := s.log ++ [Event.waitForDeployment handle r.1] })

/-- Awaited `handle.getAddress()`. -/
def getAddress (hre : Client F H E W) (handle : H) : Script F H E W String :=
  fun s =>
    let r := hre.getAddress handle s.world
    (r.1, { world := r.2, log := s.log ++ [Event.getAddress handle r.1] })

/-- The text `console.log` builds from string arguments when the first one holds no
format directive: the arguments separated by single spaces. -/
def formatArgs (args : List String) : String :=
  " ".intercalate args

/-- The call `console.log(...args)`: one write to standard output, the formatted text
followed by a line feed. -/
def consoleLog (args : List String) : Script F H E W Unit :=
  fun s => (Except.ok (), { s with log := s.log ++ [Event.stdoutWrite (formatArgs args ++ "\n")] })

/-- The call `console.error(error)`: one write of the value to standard error. -/
def consoleError (error : E) : Script F H E W Unit :=
  fun s => (Except.ok (), { s with log := s.log ++ [Event.stderrWrite error] })

/-- The assignment `process.exitCode = code`. -/
def setExitCode (code : Nat) : Script F H E W Unit :=
  fun s => (Except.ok (), { s with log := s.log ++ [Event.setExitCode code] })

/-- The function `main` of `scripts/deploy.js`. -/
def main (hre : Client F H E W) : Script F H E W Unit := do
  let MetaLockDAO ← getContractFactory hre "MetaLockDAO"
  let dao ← deploy hre MetaLockDAO []
  waitForDeployment hre dao
  consoleLog ["MetaLock DAO deployed to:", ← getAddress hre dao]

/-- The top level of `scripts/deploy.js`: `main().catch(...)`. -/
def script (hre : Client F H E W) : Script F H E W Unit :=
  promiseCatch (main hre) (fun error => do
    consoleError error
    setExitCode 1)

/-- The state a fresh process starts in: the given world, nothing logged yet. -/
def State.init (w : W) : State F H E W :=
  { world := w, log := [] }

/-- One invocation of the script against client `hre` in world `w`: the final state. -/
def run (hre : Client F H E W) (w : W) : State F H E W :=
  (script hre (State.init w)).2

/-! ## Observations on the event log -/

/-- The writes made to standard output, in order. -/
def stdoutOf : List (Event F H E) → List String
  | [] => []
  | Event.stdoutWrite text :: rest => text :: stdoutOf rest
  | _ :: rest => stdoutOf rest

/-- The values written to standard error, in order. -/
def stderrOf : List (Event F H E) → List E
  | [] => []
  | Event.stderrWrite err :: rest => err :: stderrOf rest
  | _ :: rest => stderrOf rest

/-- The value of `process.exitCode` after the logged assignments, starting from
`prior` (`none` is JavaScript's `undefined`, the value in a fresh process). -/
def exitCodeAfter (prior : Option Nat) : List (Event F H E) → Option Nat
  | [] => prior
  | Event.setExitCode code :: rest => exitCodeAfter (some code) rest
  | _ :: rest => exitCodeAfter prior rest

/-- The status the process exits with once it has nothing left to do: the value of
`process.exitCode`, and 0 when that was never assigned. -/
def exitStatus (exitCode : Option Nat) : Nat :=
  exitCode.getD 0

/-- The exit status of one invocation in a fresh process. -/
def processExit (hre : Client F H E W) (w : W) : Nat :=
  exitStatus (exitCodeAfter none (run hre w).log)

/-- Whether the event is a client call. -/
def Event.isCall : Event F H E → Bool
  | Event.getContractFactory _ _ => true
  | Event.deploy _ _ _ => true
  | Event.waitForDeployment _ _ => true
  | Event.getAddress _ _ => true
  | _ => false

/-- The trace of client calls: the log without the process's own output events. -/
def calls (log : List (Event F H E)) : List (Event F H E) :=
  log.filter Event.isCall

/-- The position of a client call in the pipeline (0 resolve, 1 submit, 2 confirm,
3 address); `none` for the other events. -/
def Event.step : Event F H E → Option Nat
  | Event.getContractFactory _ _ => some 0
  | Event.deploy _ _ _ => some 1
  | Event.waitForDeployment _ _ => some 2
  | Event.getAddress _ _ => some 3
  | _ => none

/-- The value a client call threw, if it threw. -/
def Event.raised : Event F H E → Option E
  | Event.getContractFactory _ (Except.error e) => some e
  | Event.deploy _ _ (Except.error e) => some e
  | Event.waitForDeployment _ (Except.error e) => some e
  | Event.getAddress _ (Except.error e) => some e
  | _ => none

/-- How many calls of pipeline step `k` the log holds. -/
def callCount (k : Nat) (log : List (Event F H E)) : Nat :=
  log.countP (fun ev => decide (ev.step = some k))

/-- Whether the event writes to standard output. -/
def Event.isStdoutWrite : Event F H E → Bool
  | Event.stdoutWrite _ => true
  | _ => false

/-- Whether the event assigns `process.exitCode`. -/
def Event.isSetExitCode : Event F H E → Bool
  | Event.setExitCode _ => true
  | _ => false

/-- The invocation is successful: the promise `main()` returns is fulfilled. -/
def Succeeded (hre : Client F H E W) (w : W) : Prop :=
  (main hre (State.init w)).1 = Except.ok ()

/-- The invocation fails with `e`: the promise `main()` returns is rejected with `e`. -/
def FailedWith (hre : Client F H E W) (w : W) (e : E) : Prop :=
  (main hre (State.init w)).1 = Except.error e

/-- Splits text into its lines: every line feed ends a line, and text after the last
line feed is a final, unterminated line. -/
def splitLines : List Char → List (List Char)
  | [] => []
  | c :: cs =>
    if c = Char.ofNat 10 then [] :: splitLines cs
    else
      match splitLines cs with
      | [] => [[c]]
      | l :: ls => (c :: l) :: ls

/-- The lines standard output holds after the given writes. -/
def stdoutLines (writes : List String) : List String :=
  (splitLines (writes.map String.toList).flatten).map String.mk

/-! ## The five paths through the script -/

/-- The ways one invocation can go: every step succeeds, or the first failing step is
artifact resolution, submission, confirmation or the address query. -/
inductive Outcome (F H E : Type) where
  | success (f : F) (h : H) (a : String)
  | resolveFailed (e : E)
  | submitFailed (f : F) (e : E)
  | confirmFailed (f : F) (h : H) (e : E)
  | addressFailed (f : F) (h : H) (e : E)

/-- The client, started in world `w`, behaves as the outcome says and ends in `w'`. -/
def Leads (hre : Client F H E W) (w : W) : Outcome F H E → W → Prop
  | Outcome.success f h a, w' => ∃ w1 w2 w3,
      hre.getContractFactory "MetaLockDAO" w = (Except.ok f, w1) ∧
      hre.deploy f [] w1 = (Except.ok h, w2) ∧
      hre.waitForDeployment h w2 = (Except.ok (), w3) ∧
      hre.getAddress h w3 = (Except.ok a, w')
  | Outcome.resolveFailed e, w' =>
      hre.getContractFactory "MetaLockDAO" w = (Except.error e, w')
  | Outcome.submitFailed f e, w' => ∃ w1,
      hre.getContractFactory "MetaLockDAO" w = (Except.ok f, w1) ∧
      hre.deploy f [] w1 = (Except.error e, w')
  | Outcome.confirmFailed f h e, w' => ∃ w1 w2,
      hre.getContractFactory "MetaLockDAO" w = (Except.ok f, w1) ∧
      hre.deploy f [] w1 = (Except.ok h, w2) ∧
      hre.waitForDeployment h w2 = (Except.error e, w')
  | Outcome.addressFailed f h e, w' => ∃ w1 w2 w3,
      hre.getContractFactory "MetaLockDAO" w = (Except.ok f, w1) ∧
      hre.deploy f [] w1 = (Except.ok h, w2) ∧
      hre.waitForDeployment h w2 = (Except.ok (), w3) ∧
      hre.getAddress h w3 = (Except.error e, w')

/-- How the promise of `main()` settles on each path. -/
def Outcome.result : Outcome F H E → Except E Unit
  | Outcome.success _ _ _ => Except.ok ()
  | Outcome.resolveFailed e => Except.error e
  | Outcome.submitFailed _ e => Except.error e
  | Outcome.confirmFailed _ _ e => Except.error e
  | Outcome.addressFailed _ _ e => Except.error e

/-- The events of the whole script on each path. -/
def Outcome.log : Outcome F H E → List (Event F H E)
  | Outcome.success f h a =>
      [Event.getContractFactory "MetaLockDAO" (Except.ok f),
       Event.deploy f [] (Except.ok h),
       Event.waitForDeployment h (Except.ok ()),
       Event.getAddress h (Except.ok a),
       Event.stdoutWrite ("MetaLock DAO deployed to: " ++ a ++ "\n")]
  | Outcome.resolveFailed e =>
      [Event.getContractFactory "MetaLockDAO" (Except.error e),
       Event.stderrWrite e, Event.setExitCode 1]
  | Outcome.submitFailed f e =>
      [Event.getContractFactory "MetaLockDAO" (Except.ok f),
       Event.deploy f [] (Except.error e),
       Event.stderrWrite e, Event.setExitCode 1]
  | Outcome.confirmFailed f h e =>
      [Event.getContractFactory "MetaLockDAO" (Except.ok f),
       Event.deploy f [] (Except.ok h),
       Event.waitForDeployment h (Except.error e),
       Event.stderrWrite e, Event.setExitCode 1]
  | Outcome.addressFailed f h e =>
      [Event.getContractFactory "MetaLockDAO" (Except.ok f),
       Event.deploy f [] (Except.ok h),
       Event.waitForDeployment h (Except.ok ()),
       Event.getAddress h (Except.error e),
       Event.stderrWrite e, Event.setExitCode 1]

/-! ## Mock clients -/

/-- A mock client in the manner of the spec's test: every call succeeds and the
address is always the same text.  The world counts the deployments submitted. -/
def mockClient : Client Nat Nat String Nat where
  getContractFactory := fun _ w => (Except.ok 7, w)
  deploy := fun _ _ w => (Except.ok w, w + 1)
  waitForDeployment := fun _ w => (Except.ok (), w)
  getAddress := fun _ w => (Except.ok "0xABC...123", w)

/-- A client that gives the n-th deployment an address of its own. -/
def freshClient : Client Nat Nat String Nat where
  getContractFactory := fun _ w => (Except.ok 7, w)
  deploy := fun _ _ w => (Except.ok w, w + 1)
  waitForDeployment := fun _ w => (Except.ok (), w)
  getAddress := fun h w => (Except.ok (String.mk (List.replicate (h + 1) (Char.ofNat 48))), w)

/-- A client with no compiled contract: artifact resolution throws. -/
def noArtifactClient : Client Nat Nat String Nat where
  getContractFactory := fun _ w => (Except.error "HH700", w)
  deploy := fun _ _ w => (Except.ok w, w + 1)
  waitForDeployment := fun _ w => (Except.ok (), w)
  getAddress := fun _ w => (Except.ok "0xABC...123", w)

/-- A client that rejects the deployment transaction. -/
def rejectingClient : Client Nat Nat String Nat where
  getContractFactory := fun _ w => (Except.ok 7, w)
  deploy := fun _ _ w => (Except.error "insufficient funds", w)
  waitForDeployment := fun _ w => (Except.ok (), w)
  getAddress := fun _ w => (Except.ok "0xABC...123", w)

/-- A client whose deployment transaction reverts during confirmation. -/
def revertingClient : Client Nat Nat String Nat where
  getContractFactory := fun _ w => (Except.ok 7, w)
  deploy := fun _ _ w => (Except.ok w, w + 1)
  waitForDeployment := fun _ w => (Except.error "reverted", w)
  getAddress := fun _ w => (Except.ok "0xABC...123", w)

/-- A client that deploys and confirms but cannot report the address. -/
def addresslessClient : Client Nat Nat String Nat where
  getContractFactory := fun _ w => (Except.ok 7, w)
  deploy := fun _ _ w => (Except.ok w, w + 1)
  waitForDeployment := fun _ w => (Except.ok (), w)
  getAddress := fun _ w => (Except.error "no address", w)

/-- A client whose every call succeeds and whose address text holds a line feed. -/
def lineFeedClient : Client Nat Nat String Nat where
  getContractFactory := fun _ w => (Except.ok 7, w)
  deploy := fun _ _ w => (Except.ok w, w + 1)
  waitForDeployment := fun _ w => (Except.ok (), w)
  getAddress := fun _ w => (Except.ok "0xAB\nCD", w)

/-! ## Supporting lemmas -/

theorem formatArgs_pair (x y : String) : formatArgs [x, y] = x ++ " " ++ y := rfl

theorem label_space :
    "MetaLock DAO deployed to:" ++ " " = "MetaLock DAO deployed to: " := by decide

theorem formatArgs_label (a : String) :
    formatArgs ["MetaLock DAO deployed to:", a] = "MetaLock DAO deployed to: " ++ a := by
  rw [formatArgs_pair, label_space]

/-- Every client behaviour falls on one of the five paths. -/
theorem leads_total (hre : Client F H E W) (w : W) : ∃ o w', Leads hre w o w' := by
  rcases h1 : hre.getContractFactory "MetaLockDAO" w with ⟨e | f, w1⟩
  · exact ⟨Outcome.resolveFailed e, w1, h1⟩
  rcases h2 : hre.deploy f [] w1 with ⟨e | h, w2⟩
  · exact ⟨Outcome.submitFailed f e, w2, w1, h1, h2⟩
  rcases h3 : hre.waitForDeployment h w2 with ⟨e | u, w3⟩
  · exact ⟨Outcome.confirmFailed f h e, w3, w1, w2, h1, h2, h3⟩
  rcases h4 : hre.getAddress h w3 with ⟨e | a, w4⟩
  · exact ⟨Outcome.addressFailed f h e, w4, w1, w2, w3, h1, h2, h3, h4⟩
  · exact ⟨Outcome.success f h a, w4, w1, w2, w3, h1, h2, h3, h4⟩

/-- On each path `main()` settles as the path says. -/
theorem main_result_of_leads (hre : Client F H E W) (w w' : W) (o : Outcome F H E)
    (hl : Leads hre w o w') : (main hre (State.init w)).1 = o.result := by
  cases o with
  | success f h a =>
    obtain ⟨w1, w2, w3, h1, h2, h3, h4⟩ := hl
    simp [main, bind, Script.bind, getContractFactory, deploy, waitForDeployment, getAddress,
      consoleLog, State.init, h1, h2, h3, h4, Outcome.result]
  | resolveFailed e =>
    have h1 : hre.getContractFactory "MetaLockDAO" w = (Except.error e, w') := hl
    simp [main, bind, Script.bind, getContractFactory, State.init, h1, Outcome.result]
  | submitFailed f e =>
    obtain ⟨w1, h1, h2⟩ := hl
    simp [main, bind, Script.bind, getContractFactory, deploy, State.init, h1, h2,
      Outcome.result]
  | confirmFailed f h e =>
    obtain ⟨w1, w2, h1, h2, h3⟩ := hl
    simp [main, bind, Script.bind, getContractFactory, deploy, waitForDeployment, State.init,
      h1, h2, h3, Outcome.result]
  | addressFailed f h e =>
    obtain ⟨w1, w2, w3, h1, h2, h3, h4⟩ := hl
    simp [main, bind, Script.bind, getContractFactory, deploy, waitForDeployment, getAddress,
      State.init, h1, h2, h3, h4, Outcome.result]

/-- On each path the script ends in the path's world with the path's log. -/
theorem run_of_leads (hre : Client F H E W) (w w' : W) (o : Outcome F H E)
    (hl : Leads hre w o w') : run hre w = { world := w', log := o.log } := by
  cases o with
  | success f h a =>
    obtain ⟨w1, w2, w3, h1, h2, h3, h4⟩ := hl
    simp [run, script, promiseCatch, main, bind, Script.bind, getContractFactory, deploy,
      waitForDeployment, getAddress, consoleLog, State.init, h1, h2, h3, h4, Outcome.log,
      formatArgs_label]
  | resolveFailed e =>
    have h1 : hre.getContractFactory "MetaLockDAO" w = (Except.error e, w') := hl
    simp [run, script, promiseCatch, main, bind, Script.bind, getContractFactory,
      consoleError, setExitCode, State.init, h1, Outcome.log]
  | submitFailed f e =>
    obtain ⟨w1, h1, h2⟩ := hl
    simp [run, script, promiseCatch, main, bind, Script.bind, getContractFactory, deploy,
      consoleError, setExitCode, State.init, h1, h2, Outcome.log]
  | confirmFailed f h e =>
    obtain ⟨w1, w2, h1, h2, h3⟩ := hl
    simp [run, script, promiseCatch, main, bind, Script.bind, getContractFactory, deploy,
      waitForDeployment, consoleError, setExitCode, State.init, h1, h2, h3, Outcome.log]
  | addressFailed f h e =>
    obtain ⟨w1, w2, w3, h1, h2, h3, h4⟩ := hl
    simp [run, script, promiseCatch, main, bind, Script.bind, getContractFactory, deploy,
      waitForDeployment, getAddress, consoleError, setExitCode, State.init, h1, h2, h3, h4,
      Outcome.log]

/-- Every invocation follows one of the five paths. -/
theorem run_cases (hre : Client F H E W) (w : W) :
    ∃ o w', Leads hre w o w' ∧ (main hre (State.init w)).1 = o.result ∧
      run hre w = { world := w', log := o.log } := by
  obtain ⟨o, w', hl⟩ := leads_total hre w
  exact ⟨o, w', hl, main_result_of_leads hre w w' o hl, run_of_leads hre w w' o hl⟩

theorem splitLines_terminated (cs : List Char) (hcs : ∀ ch ∈ cs, ch ≠ Char.ofNat 10) :
    splitLines (cs ++ [Char.ofNat 10]) = [cs] := by
  induction cs with
  | nil => simp [splitLines]
  | cons c cs ih =>
    have hc : c ≠ Char.ofNat 10 := hcs c (List.mem_cons_self c cs)
    have ih1 := ih (fun ch hch => hcs ch (List.mem_cons_of_mem c hch))
    simp [splitLines, hc, ih1]

theorem label_no_line_feed :
    ∀ ch ∈ "MetaLock DAO deployed to: ".toList, ch ≠ Char.ofNat 10 := by decide

theorem stdoutLines_single (a : String) (ha : ∀ ch ∈ a.toList, ch ≠ Char.ofNat 10) :
    stdoutLines ["MetaLock DAO deployed to: " ++ a ++ "\n"]
      = ["MetaLock DAO deployed to: " ++ a] := by
  have hnl : ("\n" : String).toList = [Char.ofNat 10] := by decide
  have hcs : ∀ ch ∈ ("MetaLock DAO deployed to: " ++ a).toList, ch ≠ Char.ofNat 10 := by
    intro ch hch
    rw [String.toList, String.data_append, List.mem_append] at hch
    rcases hch with hch | hch
    · exact label_no_line_feed ch hch
    · exact ha ch hch
  have hsplit := splitLines_terminated _ hcs
  simp only [stdoutLines, List.map, List.flatten, List.append_nil]
  rw [String.toList, String.data_append]
  rw [String.toList] at hsplit
  rw [show ("\n" : String).data = [Char.ofNat 10] from hnl, hsplit]
  rfl

/-- A list whose only element satisfying `p` is its last splits at such an element in
one way only. -/
theorem split_at_first {α : Type} (p : α → Bool) (l0 : List α) (x : α)
    (pre post : List α) (ev : α) (hl0 : ∀ y ∈ l0, p y = false)
    (hsplit : l0 ++ [x] = pre ++ ev :: post) (hev : p ev = true) :
    pre = l0 ∧ ev = x ∧ post = [] := by
  induction l0 generalizing pre with
  | nil =>
    cases pre with
    | nil => simp at hsplit; exact ⟨rfl, hsplit.1.symm, hsplit.2⟩
    | cons q pre => simp at hsplit
  | cons y l0 ih =>
    cases pre with
    | nil =>
      simp at hsplit
      have := hl0 y (List.mem_cons_self y l0)
      rw [hsplit.1, hev] at this
      exact absurd this (by simp)
    | cons q pre =>
      simp at hsplit
      obtain ⟨hq, hrest⟩ := hsplit
      have := ih pre (fun z hz => hl0 z (List.mem_cons_of_mem y hz)) hrest
      exact ⟨by rw [hq, this.1], this.2⟩


/-- The printed line determines the address. -/
theorem printed_line_injective (a1 a2 : String) :
    "MetaLock DAO deployed to: " ++ a1 ++ "\n" = "MetaLock DAO deployed to: " ++ a2 ++ "\n"
      ↔ a1 = a2 := by
  constructor
  · intro heq
    have hdata := congrArg String.data heq
    simp only [String.data_append] at hdata
    exact String.ext (List.append_cancel_left (List.append_cancel_right hdata))
  · intro heq
    rw [heq]

/-- The shape of a successful run: its call trace and its output. -/
theorem success_shape (hre : Client F H E W) (w : W) (hs : Succeeded hre w) :
    ∃ f h a, calls (run hre w).log =
        [Event.getContractFactory "MetaLockDAO" (Except.ok f),
         Event.deploy f [] (Except.ok h),
         Event.waitForDeployment h (Except.ok ()),
         Event.getAddress h (Except.ok a)] ∧
      stdoutOf (run hre w).log = ["MetaLock DAO deployed to: " ++ a ++ "\n"] := by
  obtain ⟨o, w', -, hres, hrun⟩ := run_cases hre w
  rw [Succeeded, hres] at hs
  rw [hrun]
  cases o with
  | success f h a => exact ⟨f, h, a, by simp [Outcome.log, calls, Event.isCall, stdoutOf]⟩
  | resolveFailed e => simp [Outcome.result] at hs
  | submitFailed f e => simp [Outcome.result] at hs
  | confirmFailed f h e => simp [Outcome.result] at hs
  | addressFailed f h e => simp [Outcome.result] at hs


/-! ## The claims -/

/-- C1, as stated, fails: against a client whose four operations all succeed and whose
`getAddress` returns the text `0xAB`, line feed, `CD`, the script leaves two lines on
standard output, not one, and neither is the label followed by the returned text. -/
theorem line_feed_address_prints_two_lines :
    Leads lineFeedClient 0 (Outcome.success 7 0 "0xAB\nCD") 1 ∧
    stdoutLines (stdoutOf (run lineFeedClient 0).log)
      = ["MetaLock DAO deployed to: 0xAB", "CD"] ∧
    (stdoutLines (stdoutOf (run lineFeedClient 0).log)).length = 2 ∧
    ¬ (stdoutLines (stdoutOf (run lineFeedClient 0).log)
      = ["MetaLock DAO deployed to: " ++ "0xAB\nCD"]) :=
  ⟨⟨0, 1, 1, rfl, rfl, rfl, rfl⟩, by decide, by decide, by decide⟩

/-- C1, amended: for every client whose four operations all succeed and whose
`getAddress` returns `a`, the script makes exactly one write to standard output, the
text `MetaLock DAO deployed to: a` followed by a line feed (the label, one space, then
`a` unchanged), and the process exits with code 0; when `a` holds no line feed,
standard output is exactly one line and that line is `MetaLock DAO deployed to: a`. -/
theorem success_prints_address_and_exits_zero (hre : Client F H E W) (w w' : W)
    (f : F) (h : H) (a : String) (hl : Leads hre w (Outcome.success f h a) w') :
    stdoutOf (run hre w).log = ["MetaLock DAO deployed to: " ++ a ++ "\n"] ∧
    processExit hre w = 0 ∧
    ((∀ ch ∈ a.toList, ch ≠ Char.ofNat 10) →
      stdoutLines (stdoutOf (run hre w).log) = ["MetaLock DAO deployed to: " ++ a]) := by
  have hout : stdoutOf (run hre w).log = ["MetaLock DAO deployed to: " ++ a ++ "\n"] := by
    rw [run_of_leads hre w w' _ hl]
    simp [Outcome.log, stdoutOf]
  refine ⟨hout, ?_, ?_⟩
  · rw [processExit, run_of_leads hre w w' _ hl]
    simp [Outcome.log, exitCodeAfter, exitStatus]
  · intro ha
    rw [hout]
    exact stdoutLines_single a ha

/-- C1, amended, at the mock client of the spec's test, whose address holds no line
feed: one write, one line, exit code 0. -/
theorem success_prints_address_and_exits_zero_witness :
    Leads mockClient 0 (Outcome.success 7 0 "0xABC...123") 1 ∧
    (∀ ch ∈ "0xABC...123".toList, ch ≠ Char.ofNat 10) ∧
    stdoutOf (run mockClient 0).log = ["MetaLock DAO deployed to: " ++ "0xABC...123" ++ "\n"] ∧
    processExit mockClient 0 = 0 ∧
    stdoutLines (stdoutOf (run mockClient 0).log)
      = ["MetaLock DAO deployed to: " ++ "0xABC...123"] :=
  have hl : Leads mockClient 0 (Outcome.success 7 0 "0xABC...123") 1 :=
    ⟨0, 1, 1, rfl, rfl, rfl, rfl⟩
  have ha : ∀ ch ∈ "0xABC...123".toList, ch ≠ Char.ofNat 10 := by decide
  have h := success_prints_address_and_exits_zero mockClient 0 1 7 0 "0xABC...123" hl
  ⟨hl, ha, h.1, h.2.1, h.2.2 ha⟩

/-- C2: for every client in which artifact resolution, submission or confirmation
fails with `e`, the process exits with code 1, `e` is written to standard error, and
nothing is written to standard output. -/
theorem pipeline_failure_exits_one (hre : Client F H E W) (w w' : W) (e : E)
    (hl : Leads hre w (Outcome.resolveFailed e) w' ∨
      (∃ f, Leads hre w (Outcome.submitFailed f e) w') ∨
      (∃ f h, Leads hre w (Outcome.confirmFailed f h e) w')) :
    processExit hre w = 1 ∧ stderrOf (run hre w).log = [e] ∧
    stdoutOf (run hre w).log = [] := by
  rcases hl with hl | ⟨f, hl⟩ | ⟨f, h, hl⟩ <;>
    simp [processExit, run_of_leads hre w w' _ hl, Outcome.log, exitCodeAfter, exitStatus,
      stderrOf, stdoutOf]

/-- C2 at a client whose confirmation reverts. -/
theorem pipeline_failure_exits_one_witness :
    Leads revertingClient 0 (Outcome.confirmFailed 7 0 "reverted") 1 ∧
    processExit revertingClient 0 = 1 ∧
    stderrOf (run revertingClient 0).log = ["reverted"] ∧
    stdoutOf (run revertingClient 0).log = [] :=
  ⟨⟨0, 1, rfl, rfl, rfl⟩,
   pipeline_failure_exits_one revertingClient 0 1 "reverted"
     (Or.inr (Or.inr ⟨7, 0, 0, 1, rfl, rfl, rfl⟩))⟩

/-- C3: in every failing run (the promise of `main()` is rejected with `e`), `e` is
the value the failing step threw (a client call in the trace threw `e`, and no call
threw anything else), and standard error receives exactly that value, exactly once. -/
theorem failure_logs_thrown_error_once (hre : Client F H E W) (w : W) (e : E)
    (hfail : FailedWith hre w e) :
    (∃ ev ∈ calls (run hre w).log, ev.raised = some e) ∧
    (∀ ev ∈ (run hre w).log, ∀ e', ev.raised = some e' → e' = e) ∧
    stderrOf (run hre w).log = [e] := by
  obtain ⟨o, w', -, hres, hrun⟩ := run_cases hre w
  rw [FailedWith, hres] at hfail
  rw [hrun]
  cases o <;> simp [Outcome.result] at hfail <;> subst hfail <;>
    simp [Outcome.log, calls, Event.isCall, Event.raised, stderrOf]

/-- C3 at a client that rejects the submission. -/
theorem failure_logs_thrown_error_once_witness :
    FailedWith rejectingClient 0 "insufficient funds" ∧
    (∃ ev ∈ calls (run rejectingClient 0).log, ev.raised = some "insufficient funds") ∧
    (∀ ev ∈ (run rejectingClient 0).log, ∀ e', ev.raised = some e' →
      e' = "insufficient funds") ∧
    stderrOf (run rejectingClient 0).log = ["insufficient funds"] :=
  ⟨rfl, failure_logs_thrown_error_once rejectingClient 0 "insufficient funds" rfl⟩

/-- C9: if `getContractFactory`, `deploy` and `waitForDeployment` succeed but
`getAddress` fails with `e`, the process exits with code 1 with `e` on standard
error, and standard output stays empty (no write at all, so not even the label),
although the deployment was submitted and confirmed. -/
theorem address_failure_prints_nothing (hre : Client F H E W) (w w' : W)
    (f : F) (h : H) (e : E) (hl : Leads hre w (Outcome.addressFailed f h e) w') :
    processExit hre w = 1 ∧ stderrOf (run hre w).log = [e] ∧
    stdoutOf (run hre w).log = [] ∧
    (∀ ev ∈ (run hre w).log, ev.isStdoutWrite = false) ∧
    Event.deploy f [] (Except.ok h) ∈ (run hre w).log ∧
    Event.waitForDeployment h (Except.ok ()) ∈ (run hre w).log := by
  simp [processExit, run_of_leads hre w w' _ hl, Outcome.log, exitCodeAfter, exitStatus,
    stderrOf, stdoutOf, Event.isStdoutWrite]

/-- C9 at a client that cannot report the address. -/
theorem address_failure_prints_nothing_witness :
    Leads addresslessClient 0 (Outcome.addressFailed 7 0 "no address") 1 ∧
    processExit addresslessClient 0 = 1 ∧
    stderrOf (run addresslessClient 0).log = ["no address"] ∧
    stdoutOf (run addresslessClient 0).log = [] ∧
    (∀ ev ∈ (run addresslessClient 0).log, ev.isStdoutWrite = false) ∧
    Event.deploy 7 [] (Except.ok 0) ∈ (run addresslessClient 0).log ∧
    Event.waitForDeployment 0 (Except.ok ()) ∈ (run addresslessClient 0).log :=
  ⟨⟨0, 1, 1, rfl, rfl, rfl, rfl⟩,
   address_failure_prints_nothing addresslessClient 0 1 7 0 "no address"
     ⟨0, 1, 1, rfl, rfl, rfl, rfl⟩⟩

/-- C4: in every run, a write to standard output comes only after confirmation: the
events before the write are exactly the resolution, the submission that returned the
handle `h`, a `waitForDeployment` call on `h` that returned successfully, and then the
`getAddress` call on `h`, in this order. -/
theorem address_printed_after_confirmation (hre : Client F H E W) (w : W)
    (pre post : List (Event F H E)) (ev : Event F H E)
    (hsplit : (run hre w).log = pre ++ ev :: post) (hev : ev.isStdoutWrite = true) :
    ∃ f h a, pre = [Event.getContractFactory "MetaLockDAO" (Except.ok f),
      Event.deploy f [] (Except.ok h),
      Event.waitForDeployment h (Except.ok ()),
      Event.getAddress h (Except.ok a)] := by
  obtain ⟨o, w', -, -, hrun⟩ := run_cases hre w
  have hlog : o.log = pre ++ ev :: post := by rw [← hsplit, hrun]
  have hmem : ev ∈ o.log := by rw [hlog]; simp
  cases o with
  | success f h a =>
    refine ⟨f, h, a, ?_⟩
    have hsplit1 : [Event.getContractFactory "MetaLockDAO" (Except.ok f),
        Event.deploy f [] (Except.ok h), Event.waitForDeployment h (Except.ok ()),
        Event.getAddress h (Except.ok a)]
        ++ [Event.stdoutWrite ("MetaLock DAO deployed to: " ++ a ++ "\n")]
        = pre ++ ev :: post := hlog
    exact (split_at_first Event.isStdoutWrite _ _ pre post ev
      (by simp [Event.isStdoutWrite]) hsplit1 hev).1
  | resolveFailed e =>
    simp [Outcome.log] at hmem
    rcases hmem with rfl | rfl | rfl <;> simp [Event.isStdoutWrite] at hev
  | submitFailed f e =>
    simp [Outcome.log] at hmem
    rcases hmem with rfl | rfl | rfl | rfl <;> simp [Event.isStdoutWrite] at hev
  | confirmFailed f h e =>
    simp [Outcome.log] at hmem
    rcases hmem with rfl | rfl | rfl | rfl | rfl <;> simp [Event.isStdoutWrite] at hev
  | addressFailed f h e =>
    simp [Outcome.log] at hmem
    rcases hmem with rfl | rfl | rfl | rfl | rfl | rfl <;> simp [Event.isStdoutWrite] at hev

/-- C4 at the mock client: the write and what precedes it. -/
theorem address_printed_after_confirmation_witness :
    (run mockClient 0).log =
      [Event.getContractFactory "MetaLockDAO" (Except.ok 7), Event.deploy 7 [] (Except.ok 0),
        Event.waitForDeployment 0 (Except.ok ()), Event.getAddress 0 (Except.ok "0xABC...123")]
      ++ Event.stdoutWrite "MetaLock DAO deployed to: 0xABC...123\n" :: [] ∧
    ∃ f h a, ([Event.getContractFactory "MetaLockDAO" (Except.ok 7),
        Event.deploy 7 [] (Except.ok 0), Event.waitForDeployment 0 (Except.ok ()),
        Event.getAddress 0 (Except.ok "0xABC...123")] : List (Event Nat Nat String))
      = [Event.getContractFactory "MetaLockDAO" (Except.ok f),
        Event.deploy f [] (Except.ok h),
        Event.waitForDeployment h (Except.ok ()),
        Event.getAddress h (Except.ok a)] :=
  ⟨rfl, address_printed_after_confirmation mockClient 0 _ [] _ rfl rfl⟩

/-- C5: nothing is retried: in every run each of `getContractFactory`, `deploy`,
`waitForDeployment` and `getAddress` is called at most once, and in every successful
run `deploy` is called exactly once. -/
theorem each_step_called_at_most_once (hre : Client F H E W) (w : W) :
    callCount 0 (run hre w).log ≤ 1 ∧ callCount 1 (run hre w).log ≤ 1 ∧
    callCount 2 (run hre w).log ≤ 1 ∧ callCount 3 (run hre w).log ≤ 1 ∧
    (Succeeded hre w → callCount 1 (run hre w).log = 1) := by
  obtain ⟨o, w', -, hres, hrun⟩ := run_cases hre w
  rw [Succeeded, hres, hrun]
  cases o <;> simp [Outcome.log, Outcome.result, callCount, Event.step, List.countP_cons]

/-- C5 at the mock client: one call of each step. -/
theorem each_step_called_at_most_once_witness :
    Succeeded mockClient 0 ∧ callCount 1 (run mockClient 0).log = 1 ∧
    callCount 0 (run mockClient 0).log ≤ 1 ∧ callCount 2 (run mockClient 0).log ≤ 1 ∧
    callCount 3 (run mockClient 0).log ≤ 1 :=
  have h := each_step_called_at_most_once mockClient 0
  ⟨rfl, h.2.2.2.2 rfl, h.1, h.2.2.1, h.2.2.2.1⟩

/-- C7: in every successful run the trace of client calls is exactly, in this order,
`getContractFactory` with the fixed name `MetaLockDAO`, `deploy` with no arguments on
the factory that call returned, `waitForDeployment` on the handle `deploy` returned,
and `getAddress` on that same handle, whatever the client and the world are. -/
theorem success_call_trace (hre : Client F H E W) (w : W) (hs : Succeeded hre w) :
    ∃ f h a, calls (run hre w).log =
      [Event.getContractFactory "MetaLockDAO" (Except.ok f),
       Event.deploy f [] (Except.ok h),
       Event.waitForDeployment h (Except.ok ()),
       Event.getAddress h (Except.ok a)] := by
  obtain ⟨o, w', -, hres, hrun⟩ := run_cases hre w
  rw [Succeeded, hres] at hs
  rw [hrun]
  cases o with
  | success f h a => exact ⟨f, h, a, by simp [Outcome.log, calls, Event.isCall]⟩
  | resolveFailed e => simp [Outcome.result] at hs
  | submitFailed f e => simp [Outcome.result] at hs
  | confirmFailed f h e => simp [Outcome.result] at hs
  | addressFailed f h e => simp [Outcome.result] at hs

/-- C7 at the mock client. -/
theorem success_call_trace_witness :
    Succeeded mockClient 0 ∧
    ∃ f h a, calls (run mockClient 0).log =
      [Event.getContractFactory "MetaLockDAO" (Except.ok f),
       Event.deploy f [] (Except.ok h),
       Event.waitForDeployment h (Except.ok ()),
       Event.getAddress h (Except.ok a)] :=
  ⟨rfl, success_call_trace mockClient 0 rfl⟩

/-- C8: a failure stops the sequence: in every run the client calls are the pipeline
steps 0, 1, 2, ... in order, a call that throws is the last call of the trace (no
later step is called), and in particular when artifact resolution fails `deploy` is
never called. -/
theorem failure_stops_sequence (hre : Client F H E W) (w : W) :
    (calls (run hre w).log).map Event.step
      = (List.range (calls (run hre w).log).length).map some ∧
    (∀ pre post ev e, calls (run hre w).log = pre ++ ev :: post →
      ev.raised = some e → post = []) ∧
    (∀ e w1, hre.getContractFactory "MetaLockDAO" w = (Except.error e, w1) →
      callCount 1 (run hre w).log = 0) := by
  obtain ⟨o, w', hl, -, hrun⟩ := run_cases hre w
  rw [hrun]
  refine ⟨?_, ?_, ?_⟩
  · cases o <;> simp [Outcome.log, calls, Event.isCall, Event.step, List.range_succ]
  · intro pre post ev e hsplit hraised
    cases o with
    | success f h a =>
      have hmem : ev ∈ calls (Outcome.success f h a).log := by rw [hsplit]; simp
      simp [Outcome.log, calls, Event.isCall] at hmem
      rcases hmem with rfl | rfl | rfl | rfl <;> simp [Event.raised] at hraised
    | resolveFailed e0 =>
      have hsplit1 : [] ++ [Event.getContractFactory "MetaLockDAO" (Except.error e0)]
          = pre ++ ev :: post := by
        rw [← hsplit]; simp [Outcome.log, calls, Event.isCall]
      exact (split_at_first (fun x => (Event.raised x).isSome) _ _ pre post ev
        (by simp) hsplit1 (by simp [hraised])).2.2
    | submitFailed f e0 =>
      have hsplit1 : [Event.getContractFactory "MetaLockDAO" (Except.ok f)]
          ++ [Event.deploy f [] (Except.error e0)] = pre ++ ev :: post := by
        rw [← hsplit]; simp [Outcome.log, calls, Event.isCall]
      exact (split_at_first (fun x => (Event.raised x).isSome) _ _ pre post ev
        (by simp [Event.raised]) hsplit1 (by simp [hraised])).2.2
    | confirmFailed f h e0 =>
      have hsplit1 : [Event.getContractFactory "MetaLockDAO" (Except.ok f),
          Event.deploy f [] (Except.ok h)]
          ++ [Event.waitForDeployment h (Except.error e0)] = pre ++ ev :: post := by
        rw [← hsplit]; simp [Outcome.log, calls, Event.isCall]
      exact (split_at_first (fun x => (Event.raised x).isSome) _ _ pre post ev
        (by simp [Event.raised]) hsplit1 (by simp [hraised])).2.2
    | addressFailed f h e0 =>
      have hsplit1 : [Event.getContractFactory "MetaLockDAO" (Except.ok f),
          Event.deploy f [] (Except.ok h), Event.waitForDeployment h (Except.ok ())]
          ++ [Event.getAddress h (Except.error e0)] = pre ++ ev :: post := by
        rw [← hsplit]; simp [Outcome.log, calls, Event.isCall]
      exact (split_at_first (fun x => (Event.raised x).isSome) _ _ pre post ev
        (by simp [Event.raised]) hsplit1 (by simp [hraised])).2.2
  · intro e w1 h1
    cases o with
    | resolveFailed e0 => simp [Outcome.log, callCount, Event.step, List.countP_cons]
    | success f h a => obtain ⟨w1', w2, w3, h1', -⟩ := hl; rw [h1] at h1'; simp at h1'
    | submitFailed f e0 => obtain ⟨w1', h1', -⟩ := hl; rw [h1] at h1'; simp at h1'
    | confirmFailed f h e0 => obtain ⟨w1', w2, h1', -⟩ := hl; rw [h1] at h1'; simp at h1'
    | addressFailed f h e0 => obtain ⟨w1', w2, w3, h1', -⟩ := hl; rw [h1] at h1'; simp at h1'

/-- C8 at a client with no compiled contract: the one call made is the failing
resolution, and `deploy` is not called. -/
theorem failure_stops_sequence_witness :
    noArtifactClient.getContractFactory "MetaLockDAO" 0 = (Except.error "HH700", 0) ∧
    callCount 1 (run noArtifactClient 0).log = 0 ∧
    (calls (run noArtifactClient 0).log).map Event.step = [some 0] :=
  have h := failure_stops_sequence noArtifactClient 0
  ⟨rfl, h.2.2 "HH700" 0 rfl, h.1⟩

/-- C10: in every successful run nothing is written to standard error and
`process.exitCode` is never assigned, so it keeps whatever value it had before (and a
fresh process exits with 0); the exit code is assigned only in runs where some step
throws, and only to 1, and every such run does assign it. -/
theorem exit_code_assigned_only_on_failure (hre : Client F H E W) (w : W) :
    (Succeeded hre w →
      stderrOf (run hre w).log = [] ∧
      (∀ ev ∈ (run hre w).log, ev.isSetExitCode = false) ∧
      (∀ prior, exitCodeAfter prior (run hre w).log = prior) ∧
      processExit hre w = 0) ∧
    (∀ code, Event.setExitCode code ∈ (run hre w).log →
      code = 1 ∧ ∃ ev ∈ calls (run hre w).log, ∃ e, ev.raised = some e) ∧
    (∀ e, FailedWith hre w e → Event.setExitCode 1 ∈ (run hre w).log) := by
  obtain ⟨o, w', -, hres, hrun⟩ := run_cases hre w
  simp only [Succeeded, FailedWith, processExit, hres, hrun]
  cases o <;>
    simp [Outcome.log, Outcome.result, stderrOf, exitCodeAfter, exitStatus,
      Event.isSetExitCode, calls, Event.isCall, Event.raised]

/-- C10 at the mock client (a successful run) with a prior exit code of 3. -/
theorem exit_code_assigned_only_on_failure_witness :
    Succeeded mockClient 0 ∧ stderrOf (run mockClient 0).log = [] ∧
    exitCodeAfter (some 3) (run mockClient 0).log = some 3 ∧
    processExit mockClient 0 = 0 :=
  have h := (exit_code_assigned_only_on_failure mockClient 0).1 rfl
  ⟨rfl, h.1, h.2.2.1 (some 3), h.2.2.2⟩

/-- C6, as stated, fails: against the mock client two successive runs both succeed,
the second submits a deployment of its own (the client hands out a new handle, 1
instead of 0), and both print the same address. -/
theorem two_runs_print_same_address :
    Succeeded mockClient 0 ∧ Succeeded mockClient (run mockClient 0).world ∧
    calls (run mockClient 0).log =
      [Event.getContractFactory "MetaLockDAO" (Except.ok 7), Event.deploy 7 [] (Except.ok 0),
       Event.waitForDeployment 0 (Except.ok ()), Event.getAddress 0 (Except.ok "0xABC...123")] ∧
    calls (run mockClient (run mockClient 0).world).log =
      [Event.getContractFactory "MetaLockDAO" (Except.ok 7), Event.deploy 7 [] (Except.ok 1),
       Event.waitForDeployment 1 (Except.ok ()), Event.getAddress 1 (Except.ok "0xABC...123")] ∧
    stdoutOf (run mockClient 0).log = ["MetaLock DAO deployed to: 0xABC...123\n"] ∧
    stdoutOf (run mockClient (run mockClient 0).world).log
      = ["MetaLock DAO deployed to: 0xABC...123\n"] ∧
    ¬ (stdoutOf (run mockClient 0).log
      ≠ stdoutOf (run mockClient (run mockClient 0).world).log) :=
  ⟨rfl, rfl, rfl, rfl, rfl, rfl, fun hne => hne rfl⟩

/-- C6, amended: each invocation performs a deployment of its own (in each of two
successive successful runs the call trace is that run's own resolution, one `deploy`
call on the factory it resolved, confirmation and address query on the handle that
call returned) and prints the address the client returned to it; the two runs print
different addresses exactly when the client returned different addresses. -/
theorem each_run_deploys_and_prints_own_address (hre : Client F H E W) (w : W)
    (hs1 : Succeeded hre w) (hs2 : Succeeded hre (run hre w).world) :
    ∃ f1 h1 a1 f2 h2 a2,
      calls (run hre w).log =
        [Event.getContractFactory "MetaLockDAO" (Except.ok f1),
         Event.deploy f1 [] (Except.ok h1),
         Event.waitForDeployment h1 (Except.ok ()),
         Event.getAddress h1 (Except.ok a1)] ∧
      calls (run hre (run hre w).world).log =
        [Event.getContractFactory "MetaLockDAO" (Except.ok f2),
         Event.deploy f2 [] (Except.ok h2),
         Event.waitForDeployment h2 (Except.ok ()),
         Event.getAddress h2 (Except.ok a2)] ∧
      stdoutOf (run hre w).log = ["MetaLock DAO deployed to: " ++ a1 ++ "\n"] ∧
      stdoutOf (run hre (run hre w).world).log
        = ["MetaLock DAO deployed to: " ++ a2 ++ "\n"] ∧
      (stdoutOf (run hre w).log ≠ stdoutOf (run hre (run hre w).world).log ↔ a1 ≠ a2) := by
  obtain ⟨f1, h1, a1, hc1, ho1⟩ := success_shape hre w hs1
  obtain ⟨f2, h2, a2, hc2, ho2⟩ := success_shape hre (run hre w).world hs2
  refine ⟨f1, h1, a1, f2, h2, a2, hc1, hc2, ho1, ho2, ?_⟩
  rw [ho1, ho2]
  simp [printed_line_injective]

/-- C6, amended, at a client that gives every deployment an address of its own:
two successive runs print different addresses. -/
theorem each_run_deploys_and_prints_own_address_witness :
    Succeeded freshClient 0 ∧ Succeeded freshClient (run freshClient 0).world ∧
    stdoutOf (run freshClient 0).log = ["MetaLock DAO deployed to: 0\n"] ∧
    stdoutOf (run freshClient (run freshClient 0).world).log
      = ["MetaLock DAO deployed to: 00\n"] ∧
    ∃ f1 h1 a1 f2 h2 a2,
      calls (run freshClient 0).log =
        [Event.getContractFactory "MetaLockDAO" (Except.ok f1),
         Event.deploy f1 [] (Except.ok h1),
         Event.waitForDeployment h1 (Except.ok ()),
         Event.getAddress h1 (Except.ok a1)] ∧
      calls (run freshClient (run freshClient 0).world).log =
        [Event.getContractFactory "MetaLockDAO" (Except.ok f2),
         Event.deploy f2 [] (Except.ok h2),
         Event.waitForDeployment h2 (Except.ok ()),
         Event.getAddress h2 (Except.ok a2)] ∧
      stdoutOf (run freshClient 0).log = ["MetaLock DAO deployed to: " ++ a1 ++ "\n"] ∧
      stdoutOf (run freshClient (run freshClient 0).world).log
        = ["MetaLock DAO deployed to: " ++ a2 ++ "\n"] ∧
      (stdoutOf (run freshClient 0).log
        ≠ stdoutOf (run freshClient (run freshClient 0).world).log ↔ a1 ≠ a2) :=
  ⟨rfl, rfl, rfl, rfl, each_run_deploys_and_prints_own_address freshClient 0 rfl rfl⟩

end MetaLock
